import Mathlib

/-!
Verification of the chomp1 parser-combinator core.

The development embeds, in Lean:

* the `Input`/`InputBuf` cursor model (buffer, offset, incomplete flag) with
  `mark`/`restore`/`len`/`consume_remaining`, modelled from the specification
  since the `types` and `buffer` trait modules are not part of the provided
  sources;
* `SliceStream` and its `Stream::parse` implementation, translated directly
  from `src/buffer/slice.rs`;
* the iteration loops generated by the `run_iter!`, `run_iter_till!` and
  `iter_till_end_test!` macros of `src/combinators/macros.rs`, both as pure
  recursive functions (fuel indexed, since the Rust loop is driven by
  `FromIterator::from_iter` and need not terminate for arbitrary parsers) and
  as an `Option`-buffered variant that models the `self.buf.take()` /
  `expect("Iter.buf was None")` discipline literally;
* the `many` and `many_till` combinators built on those loops, modelled from
  the specification since `combinators/mod.rs` is not part of the provided
  sources.

Machine integers (`usize`) are modelled as `Nat`; the only subtractions the
embedded code performs are of the shape `len - consumed` where the
specification guarantees `consumed ≤ len`, and the theorems carry that bound
as a hypothesis wherever it is not forced by construction.
-/

/-- Modelled from the spec: the `Input` cursor of `types/mod.rs` (absent from
the sources). Per section 3 of the specification an Input holds the underlying
token sequence, a current offset, and an incomplete flag meaning the previous
operation ran off the end of currently available data. -/
structure InputBuf (α : Type) where
  buf : List α
  pos : Nat
  incomplete : Bool
deriving Repr, DecidableEq

/-- Modelled from the spec: `InputBuf::new` builds a fresh cursor over a slice,
offset zero, incomplete flag clear (used by `SliceStream::parse` via
`InputBuf::new(&self.slice[self.pos..])`). -/
def InputBuf.new (l : List α) : InputBuf α :=
  { buf := l, pos := 0, incomplete := false }

/-- Modelled from the spec: number of unconsumed tokens of the cursor. -/
def InputBuf.len (i : InputBuf α) : Nat :=
  i.buf.length - i.pos

/-- Modelled from the spec: `mark(input) -> Mark` is a snapshot of the offset
only, per section 4.1 of the specification. -/
def InputBuf.mark (i : InputBuf α) : Nat :=
  i.pos

/-- Modelled from the spec: `restore(input, mark)` applies the snapshot offset
onto the current buffer reference, a pure rewind. -/
def InputBuf.restore (i : InputBuf α) (m : Nat) : InputBuf α :=
  { i with pos := m }

/-- Modelled from the spec: `consume_remaining(input)` extracts the unconsumed
tail for diagnostics. -/
def InputBuf.consume_remaining (i : InputBuf α) : List α :=
  i.buf.drop i.pos

/-- Modelled from the spec: the incomplete-flag query used by
`SliceStream::parse` as `remainder.is_incomplete()`. -/
def InputBuf.is_incomplete (i : InputBuf α) : Bool :=
  i.incomplete

/-- The result of one parser invocation, after `into_inner()`: the remaining
input paired with either the value or the error, exactly the
`(remainder, Ok(data) | Err(err))` pairs matched on in `slice.rs` and
`macros.rs`. -/
abbrev ParseResult (α T E : Type) := InputBuf α × Except E T

/-- Modelled from the spec: `StreamError` of `buffer/mod.rs` (absent from the
sources), per section 4.4: `EndOfInput`, `Incomplete`, and `ParseError` with
the unconsumed tail and the parser error. -/
inductive StreamError (B E : Type) where
  | EndOfInput
  | Incomplete
  | ParseError (buf : B) (err : E)
deriving Repr, DecidableEq

/-- `SliceStream` from `src/buffer/slice.rs`: a position and a backing slice. -/
structure SliceStream (α : Type) where
  pos : Nat
  slice : List α
deriving Repr, DecidableEq

/-- `SliceStream::new`. -/
def SliceStream.new (l : List α) : SliceStream α :=
  { pos := 0, slice := l }

/-- `SliceStream::len`: the number of tokens left in the buffer. -/
def SliceStream.len (s : SliceStream α) : Nat :=
  s.slice.length - s.pos

/-- `SliceStream::is_empty`. -/
def SliceStream.is_empty (s : SliceStream α) : Bool :=
  s.len == 0

/-- `SliceStream::parse` from `src/buffer/slice.rs`, returning the updated
stream together with the outcome. -/
def SliceStream.parse (s : SliceStream α) (f : InputBuf α → ParseResult α T E) :
    SliceStream α × Except (StreamError (List α) E) T :=
  if s.is_empty then
    (s, .error .EndOfInput)
  else
    match f (InputBuf.new (s.slice.drop s.pos)) with
    | (remainder, .ok data) =>
        ({ s with pos := s.pos + (s.len - remainder.len) }, .ok data)
    | (remainder, .error err) =>
        if remainder.is_incomplete then
          (s, .error .Incomplete)
        else
          let r := remainder.len
          ({ s with pos := s.pos + (s.len - r) },
           .error (.ParseError remainder.consume_remaining err))

/-! ## The iteration loop of `run_iter!` (`src/combinators/macros.rs`) -/

/-- The loop body of `run_iter!` from `src/combinators/macros.rs`, as a pure
recursive function. Each step mirrors `Iter::next`: take the buffer, overwrite
the stored mark with `i.mark()`, run the parser; on `Ok` store the new buffer
and continue, on `Err` store the buffer and the error state and stop. The
`Nat` argument is fuel standing for the number of items the driving
`FromIterator::from_iter` is still willing to pull; the Rust loop is not
guaranteed to terminate for arbitrary parsers, and a container that stops
pulling ends the iteration with the state still `None`, which is the fuel-zero
case. The result quadruple is exactly `Iter::end_state`:
`(buffer, collected so far, mark, state)` with the collected items returned in
order. -/
def run_iter (p : InputBuf α → ParseResult α T E) :
    Nat → InputBuf α → Nat → List T → List T × InputBuf α × Nat × Option E
  | 0, i, m, acc => (acc.reverse, i, m, none)
  | fuel + 1, i, _, acc =>
      let m := i.mark
      match p i with
      | (b, .ok v) => run_iter p fuel b m (v :: acc)
      | (b, .error e) => (acc.reverse, b, m, some e)

/-- `j` is reachable from `i` by zero or more successful runs of `p`; used to
state that a position is exactly the one after the last confirmed success. -/
inductive Reaches (p : InputBuf α → ParseResult α T E) :
    InputBuf α → InputBuf α → Prop where
  | refl (i : InputBuf α) : Reaches p i i
  | head {i k j : InputBuf α} {v : T} :
      p i = (k, .ok v) → Reaches p k j → Reaches p i j

/-- Modelled from the spec: the `many` combinator of `combinators/mod.rs`
(absent from the sources). Per section 4.3 of the specification it runs the
`run_iter!` loop and, when the loop ended because the last attempt of the
element parser failed, discards the input consumed by the failing attempt by
restoring to the mark taken just before it, returning Success with the
collected items. The initial mark is `input.mark()` as set up by `run_iter!`.
The fuel-exhausted arm (state `None`, container stopped pulling) returns the
buffer as is with the items collected so far. -/
def many (fuel : Nat) (p : InputBuf α → ParseResult α T E) (i : InputBuf α) :
    ParseResult α (List T) E :=
  match run_iter p fuel i i.mark [] with
  | (result, s, m, some _) => (s.restore m, .ok result)
  | (result, s, _, none) => (s, .ok result)

/-! ## The iteration loop of `run_iter_till!` and `iter_till_end_test!` -/

/-- `EndStateTill` from `src/combinators/macros.rs`. -/
inductive EndStateTill (E : Type) where
  | Error (e : E)
  | Incomplete
  | EndSuccess
deriving Repr, DecidableEq

/-- `iter_till_end_test!` from `src/combinators/macros.rs`: take the buffer,
mark it, run the `end` parser; on success store the post-`end` buffer and
signal termination (`true`, the `EndStateTill::EndSuccess` path); on failure
restore the buffer to the pre-`end` mark and continue (`false`), discarding
the error of `end`. -/
def iter_till_end_test (endp : InputBuf α → ParseResult α U N)
    (i : InputBuf α) : InputBuf α × Bool :=
  let m := i.mark
  match endp i with
  | (b, .ok _) => (b, true)
  | (b, .error _) => (b.restore m, false)

/-- The loop of `run_iter_till!` as used by `many_till`: the `pre` hook is
`iter_till_end_test!`, then `IterTill::next` runs the element parser. The
state starts as `EndStateTill::Incomplete` and is only ever overwritten with
`EndSuccess` (the end parser succeeded) or `Error` (the element parser
failed); fuel zero models the driving container ceasing to pull, leaving the
initial state in place. The result triple is `IterTill::end_state`. -/
def run_iter_till (p : InputBuf α → ParseResult α T E)
    (endp : InputBuf α → ParseResult α U N) :
    Nat → InputBuf α → List T → List T × InputBuf α × EndStateTill E
  | 0, i, acc => (acc.reverse, i, .Incomplete)
  | fuel + 1, i, acc =>
      match iter_till_end_test endp i with
      | (b, true) => (acc.reverse, b, .EndSuccess)
      | (b, false) =>
          match p b with
          | (b2, .ok v) => run_iter_till p endp fuel b2 (v :: acc)
          | (b2, .error e) => (acc.reverse, b2, .Error e)

/-- Modelled from the spec: the three-way result algebra of section 3 of the
specification (success with remainder, error with remainder, incomplete),
used for the outcome of `many_till` whose match arms live in
`combinators/mod.rs` (absent from the sources). -/
inductive MResult (α T E : Type) where
  | success (rest : InputBuf α) (value : T)
  | error (rest : InputBuf α) (err : E)
  | incomplete
deriving Repr, DecidableEq

/-- Modelled from the spec: the `many_till` combinator of
`combinators/mod.rs` (absent from the sources). Per section 4.3 of the
specification it runs the `run_iter_till!` loop; on `EndSuccess` it reports
Success with the collected items, on `Error` it reports the failure of the
element parser, and when neither ever fired (state still the initial
`Incomplete`) it reports Incomplete. -/
def many_till (fuel : Nat) (p : InputBuf α → ParseResult α T E)
    (endp : InputBuf α → ParseResult α U N) (i : InputBuf α) :
    MResult α (List T) E :=
  match run_iter_till p endp fuel i [] with
  | (result, s, .EndSuccess) => .success s result
  | (_, s, .Error e) => .error s e
  | (_, _, .Incomplete) => .incomplete

/-! ## Literal model of the `Option`-wrapped buffer discipline

The Rust iterators keep the remaining input in `buf: Option<I>` and access it
with `self.buf.take().expect("Iter.buf was None")`; a `None` there is a
runtime panic. The following definitions model that discipline literally,
with `Except String` standing for possible panics, so that unreachability of
the panic can be proved. -/

/-- The `Iter` state of `run_iter!`: last error state, optional remaining
buffer, and the stored mark. -/
structure Iter (α T E : Type) where
  state : Option E
  buf : Option (InputBuf α)
  mark : Nat

/-- `Iter::next` from `run_iter!`: take the buffer (a `None` is the
`expect("Iter.buf was None")` panic), store the fresh mark, run the parser,
and put the resulting buffer back on both branches. Returns the new state and
`some v` when the iteration yielded an item, `none` when it stopped. -/
def Iter.next (it : Iter α T E) (p : InputBuf α → ParseResult α T E) :
    Except String (Iter α T E × Option T) :=
  match it.buf with
  | none => .error "Iter.buf was None"
  | some i =>
      let m := i.mark
      match p i with
      | (b, .ok v) => .ok ({ state := it.state, buf := some b, mark := m }, some v)
      | (b, .error e) => .ok ({ state := some e, buf := some b, mark := m }, none)

/-- `Iter::end_state` from `run_iter!`: unwraps the buffer (the
`expect("Iter.buf was None")` call) and returns it with the mark and state. -/
def Iter.end_state (it : Iter α T E) :
    Except String (InputBuf α × Nat × Option E) :=
  match it.buf with
  | none => .error "Iter.buf was None"
  | some i => .ok (i, it.mark, it.state)

/-- The `run_iter!` driving loop over the literal `Iter` state: pull items
until the iterator stops or the container stops pulling (fuel), then call
`Iter::end_state`. -/
def run_iter_buf (p : InputBuf α → ParseResult α T E) :
    Nat → Iter α T E → List T →
    Except String (List T × InputBuf α × Nat × Option E)
  | 0, it, acc => it.end_state.map fun r => (acc.reverse, r)
  | fuel + 1, it, acc =>
      match it.next p with
      | .error msg => .error msg
      | .ok (it2, some v) => run_iter_buf p fuel it2 (v :: acc)
      | .ok (it2, none) => it2.end_state.map fun r => (acc.reverse, r)

/-- The `IterTill` state of `run_iter_till!`: end state and optional
remaining buffer. -/
structure IterTill (α T E : Type) where
  state : EndStateTill E
  buf : Option (InputBuf α)

/-- `IterTill::next` from `run_iter_till!` with the `pre` hook
`iter_till_end_test!`: the hook takes the buffer (first
`expect("Iter.buf was None")`), marks, runs the end parser, and either stops
with `EndSuccess` or puts the restored buffer back; the body then takes the
buffer again (second `expect`) and runs the element parser. -/
def IterTill.next (it : IterTill α T E) (p : InputBuf α → ParseResult α T E)
    (endp : InputBuf α → ParseResult α U N) :
    Except String (IterTill α T E × Option T) :=
  match it.buf with
  | none => .error "Iter.buf was None"
  | some i =>
      let m := i.mark
      match endp i with
      | (b, .ok _) => .ok ({ state := .EndSuccess, buf := some b }, none)
      | (b, .error _) =>
          let it1 : IterTill α T E := { state := it.state, buf := some (b.restore m) }
          match it1.buf with
          | none => .error "Iter.buf was None"
          | some i2 =>
              match p i2 with
              | (b2, .ok v) => .ok ({ state := it1.state, buf := some b2 }, some v)
              | (b2, .error e) => .ok ({ state := .Error e, buf := some b2 }, none)

/-- `IterTill::end_state` from `run_iter_till!`: unwraps the buffer (the
`expect("Iter.buf was None")` call) and returns it with the state. -/
def IterTill.end_state (it : IterTill α T E) :
    Except String (InputBuf α × EndStateTill E) :=
  match it.buf with
  | none => .error "Iter.buf was None"
  | some i => .ok (i, it.state)

/-- The `run_iter_till!` driving loop over the literal `IterTill` state. -/
def run_iter_till_buf (p : InputBuf α → ParseResult α T E)
    (endp : InputBuf α → ParseResult α U N) :
    Nat → IterTill α T E → List T →
    Except String (List T × InputBuf α × EndStateTill E)
  | 0, it, acc => it.end_state.map fun r => (acc.reverse, r)
  | fuel + 1, it, acc =>
      match it.next p endp with
      | .error msg => .error msg
      | .ok (it2, some v) => run_iter_till_buf p endp fuel it2 (v :: acc)
      | .ok (it2, none) => it2.end_state.map fun r => (acc.reverse, r)

/-! ## Concrete parsers used to instantiate the theorems -/

/-- A parser that always fails definitely, leaving its input untouched. -/
def pFail (i : InputBuf Nat) : ParseResult Nat Nat Nat :=
  (i, .error 7)

/-- A parser that consumes one token when one is available, and otherwise
fails after setting the incomplete flag (it ran off the end of the data). -/
def pTok (i : InputBuf Nat) : ParseResult Nat Nat Nat :=
  match i.buf.get? i.pos with
  | some c => ({ i with pos := i.pos + 1 }, .ok c)
  | none => ({ i with incomplete := true }, .error 9)

/-- A parser that always reports an incomplete failure. -/
def pInc (i : InputBuf Nat) : ParseResult Nat Nat Nat :=
  ({ i with incomplete := true }, .error 3)

/-! ## Theorems -/

/-- C2: on a stream with unconsumed tokens, a definite outcome of the parser
commits: on success the position advances by exactly the consumed amount
(available length minus remainder length) and the value is returned; on a
definite (non-incomplete) failure the position advances by the amount consumed
before the failure and `ParseError` carries the entire unconsumed tail of the
remainder together with the error of the parser. -/
theorem slice_stream_parse_commit {α T E : Type} (s : SliceStream α)
    (f : InputBuf α → ParseResult α T E) (h : s.is_empty = false) :
    (∀ rem v, f (InputBuf.new (s.slice.drop s.pos)) = (rem, Except.ok v) →
      s.parse f = ({ s with pos := s.pos + (s.len - rem.len) }, Except.ok v)) ∧
    (∀ rem e, f (InputBuf.new (s.slice.drop s.pos)) = (rem, Except.error e) →
      rem.is_incomplete = false →
      s.parse f = ({ s with pos := s.pos + (s.len - rem.len) },
        Except.error (StreamError.ParseError rem.consume_remaining e))) := by
  constructor
  · intro rem v hf
    simp [SliceStream.parse, h, hf]
  · intro rem e hf hni
    simp [SliceStream.parse, h, hf, hni]

/-- Witness for C2 at concrete inputs: `pTok` consumes one token of `[1, 2, 3]`
and the stream advances to position 1 with value 1; `pFail` fails definitely
without consuming, and the stream reports `ParseError` with the whole tail. -/
theorem slice_stream_parse_commit_witness :
    (SliceStream.new [1, 2, 3]).parse pTok =
      ({ pos := 1, slice := [1, 2, 3] }, Except.ok 1) ∧
    (SliceStream.new [1, 2, 3]).parse pFail =
      ({ pos := 0, slice := [1, 2, 3] },
        Except.error (StreamError.ParseError [1, 2, 3] 7)) := by
  constructor
  · exact (slice_stream_parse_commit (SliceStream.new [1, 2, 3]) pTok (by decide)).1
      { buf := [1, 2, 3], pos := 1, incomplete := false } 1 rfl
  · exact (slice_stream_parse_commit (SliceStream.new [1, 2, 3]) pFail (by decide)).2
      { buf := [1, 2, 3], pos := 0, incomplete := false } 7 rfl (by decide)

/-- C3: when the position of the stream equals the length of the backing
slice, `parse` returns `EndOfInput`, leaves the stream untouched, and does not
invoke the supplied parser at all: the outcome is one and the same constant
for every parser. -/
theorem slice_stream_parse_exhausted {α T E : Type} (s : SliceStream α)
    (h : s.pos = s.slice.length) (f : InputBuf α → ParseResult α T E) :
    s.parse f = (s, Except.error StreamError.EndOfInput) := by
  have he : s.is_empty = true := by
    simp [SliceStream.is_empty, SliceStream.len, h]
  simp [SliceStream.parse, he]

/-- Witness for C3 at a concrete input: an exhausted stream over `[1, 2]`
yields `EndOfInput` for two different parsers, the same result for both. -/
theorem slice_stream_parse_exhausted_witness :
    SliceStream.parse { pos := 2, slice := [1, 2] } pTok =
      ({ pos := 2, slice := [1, 2] }, Except.error StreamError.EndOfInput) ∧
    SliceStream.parse { pos := 2, slice := [1, 2] } pFail =
      ({ pos := 2, slice := [1, 2] }, Except.error StreamError.EndOfInput) :=
  ⟨slice_stream_parse_exhausted { pos := 2, slice := [1, 2] } (by decide) pTok,
   slice_stream_parse_exhausted { pos := 2, slice := [1, 2] } (by decide) pFail⟩

/-- C4: when the parser fails with the incomplete flag set on its remainder,
`parse` reports `StreamError::Incomplete` and does not commit: the returned
stream is the original one, position field included, so a subsequent call
presents exactly the same unconsumed tokens. -/
theorem slice_stream_parse_incomplete_no_commit {α T E : Type}
    (s : SliceStream α) (f : InputBuf α → ParseResult α T E)
    (rem : InputBuf α) (e : E) (h : s.is_empty = false)
    (hf : f (InputBuf.new (s.slice.drop s.pos)) = (rem, Except.error e))
    (hinc : rem.is_incomplete = true) :
    s.parse f = (s, Except.error StreamError.Incomplete) ∧
    (s.parse f).1.pos = s.pos ∧
    (s.parse f).1.slice.drop (s.parse f).1.pos = s.slice.drop s.pos := by
  have hp : s.parse f = (s, Except.error StreamError.Incomplete) := by
    simp [SliceStream.parse, h, hf, hinc]
  exact ⟨hp, by rw [hp], by rw [hp]⟩

/-- Witness for C4 at a concrete input: `pInc` reports an incomplete failure
on `[1, 2]` and the stream is returned unchanged. -/
theorem slice_stream_parse_incomplete_no_commit_witness :
    (SliceStream.new [1, 2]).parse pInc =
      (SliceStream.new [1, 2], Except.error StreamError.Incomplete) ∧
    ((SliceStream.new [1, 2]).parse pInc).1.pos = (SliceStream.new [1, 2]).pos ∧
    ((SliceStream.new [1, 2]).parse pInc).1.slice.drop
        ((SliceStream.new [1, 2]).parse pInc).1.pos =
      (SliceStream.new [1, 2]).slice.drop (SliceStream.new [1, 2]).pos :=
  slice_stream_parse_incomplete_no_commit (SliceStream.new [1, 2]) pInc
    { buf := [1, 2], pos := 0, incomplete := true } 3
    (by decide) rfl (by decide)

/-- C9: `SliceStream` keeps `0 ≤ pos ≤ slice.length` across construction and
every `parse` call, and `pos` never decreases: each call leaves `pos`
unchanged or advances it by at most the currently available length (given
that the parser does not report a remainder longer than its input, which is
what keeps the `usize` subtraction of the source from underflowing), so
`len() = slice.length - pos` never underflows. -/
theorem slice_stream_pos_invariant {α T E : Type} (s : SliceStream α)
    (f : InputBuf α → ParseResult α T E)
    (hpos : s.pos ≤ s.slice.length)
    (hrem : ((f (InputBuf.new (s.slice.drop s.pos))).1).len ≤ s.len) :
    (SliceStream.new s.slice).pos ≤ s.slice.length ∧
    s.pos ≤ (s.parse f).1.pos ∧
    (s.parse f).1.pos ≤ s.pos + s.len ∧
    (s.parse f).1.pos ≤ s.slice.length ∧
    (s.parse f).1.slice = s.slice := by
  rcases hf : f (InputBuf.new (s.slice.drop s.pos)) with ⟨rem, r⟩
  rw [hf] at hrem
  refine ⟨Nat.zero_le _, ?_⟩
  by_cases he : s.is_empty
  · have hp : s.parse f = (s, Except.error StreamError.EndOfInput) := by
      simp [SliceStream.parse, he]
    rw [hp]
    exact ⟨Nat.le_refl _, Nat.le_add_right _ _, hpos, rfl⟩
  · rcases r with e | v
    · by_cases hi : rem.is_incomplete
      · have hp : s.parse f = (s, Except.error StreamError.Incomplete) := by
          simp [SliceStream.parse, he, hf, hi]
        rw [hp]
        exact ⟨Nat.le_refl _, Nat.le_add_right _ _, hpos, rfl⟩
      · have hp : s.parse f = ({ s with pos := s.pos + (s.len - rem.len) },
            Except.error (StreamError.ParseError rem.consume_remaining e)) := by
          simp [SliceStream.parse, he, hf, hi]
        rw [hp]
        refine ⟨Nat.le_add_right _ _, Nat.add_le_add_left (Nat.sub_le _ _) _, ?_, rfl⟩
        simp only [SliceStream.len, InputBuf.len] at *
        omega
    · have hp : s.parse f = ({ s with pos := s.pos + (s.len - rem.len) },
          Except.ok v) := by
        simp [SliceStream.parse, he, hf]
      rw [hp]
      refine ⟨Nat.le_add_right _ _, Nat.add_le_add_left (Nat.sub_le _ _) _, ?_, rfl⟩
      simp only [SliceStream.len, InputBuf.len] at *
      omega

/-- Witness for C9 at a concrete input: parsing `[1, 2, 3]` from position 0
with the one-token parser keeps the position within bounds. -/
theorem slice_stream_pos_invariant_witness :
    (SliceStream.new [1, 2, 3]).pos ≤ ([1, 2, 3] : List Nat).length ∧
    (SliceStream.new [1, 2, 3]).pos ≤
      ((SliceStream.new [1, 2, 3]).parse pTok).1.pos ∧
    ((SliceStream.new [1, 2, 3]).parse pTok).1.pos ≤
      (SliceStream.new [1, 2, 3]).pos + (SliceStream.new [1, 2, 3]).len ∧
    ((SliceStream.new [1, 2, 3]).parse pTok).1.pos ≤ ([1, 2, 3] : List Nat).length ∧
    ((SliceStream.new [1, 2, 3]).parse pTok).1.slice = [1, 2, 3] := by
  have h := slice_stream_pos_invariant (SliceStream.new [1, 2, 3]) pTok
    (by decide) (by decide)
  exact h

/-- C8: the mark and restore round-trip. Restoring any input derived from `s`
by further consumption (same buffer, offset at or past the offset of `s`) to
the mark of `s` yields an input observably equal to `s` (same offset, same
buffer); restoring to the same mark a second time changes nothing more; and
marking at end-of-buffer then restoring is the identity. -/
theorem mark_restore_roundtrip {α : Type} (s x : InputBuf α)
    (hbuf : x.buf = s.buf) (_hpos : s.pos ≤ x.pos) :
    (x.restore s.mark).pos = s.pos ∧
    (x.restore s.mark).buf = s.buf ∧
    (x.restore s.mark).restore s.mark = x.restore s.mark ∧
    (s.pos = s.buf.length → s.restore s.mark = s) := by
  refine ⟨rfl, hbuf, rfl, fun _ => rfl⟩

/-- Witness for C8 at a concrete input: a cursor over `[1, 2, 3]` at offset 1,
consumed further to offset 3, restores back to offset 1 on the same buffer. -/
theorem mark_restore_roundtrip_witness :
    (InputBuf.restore { buf := [1, 2, 3], pos := 3, incomplete := false }
        (InputBuf.mark { buf := [1, 2, 3], pos := 1, incomplete := false })).pos =
      (1 : Nat) ∧
    (InputBuf.restore { buf := [1, 2, 3], pos := 3, incomplete := false }
        (InputBuf.mark { buf := [1, 2, 3], pos := 1, incomplete := false })).buf =
      ([1, 2, 3] : List Nat) ∧
    InputBuf.restore
        (InputBuf.restore { buf := [1, 2, 3], pos := 3, incomplete := false }
          (InputBuf.mark { buf := [1, 2, 3], pos := 1, incomplete := false }))
        (InputBuf.mark { buf := [1, 2, 3], pos := 1, incomplete := false }) =
      InputBuf.restore { buf := [1, 2, 3], pos := 3, incomplete := false }
        (InputBuf.mark { buf := [1, 2, 3], pos := 1, incomplete := false }) ∧
    ((1 : Nat) = ([1, 2, 3] : List Nat).length →
      InputBuf.restore { buf := [1, 2, 3], pos := 1, incomplete := false }
          (InputBuf.mark { buf := [1, 2, 3], pos := 1, incomplete := false }) =
        { buf := [1, 2, 3], pos := 1, incomplete := false }) :=
  mark_restore_roundtrip
    { buf := [1, 2, 3], pos := 1, incomplete := false }
    { buf := [1, 2, 3], pos := 3, incomplete := false }
    rfl (by decide)

/-- C5: if the element parser fails on the very first attempt, `many` succeeds
with an empty collected container and the remaining input is back at the
original position: `many` consumes nothing. -/
theorem many_first_fail_empty_success {α T E : Type} (fuel : Nat)
    (p : InputBuf α → ParseResult α T E) (i b : InputBuf α) (e : E)
    (h : p i = (b, Except.error e)) :
    many (fuel + 1) p i = (b.restore i.pos, Except.ok ([] : List T)) ∧
    ((many (fuel + 1) p i).1).pos = i.pos := by
  have hr : run_iter p (fuel + 1) i i.mark [] = ([], b, i.pos, some e) := by
    simp [run_iter, InputBuf.mark, h]
  have hm : many (fuel + 1) p i = (b.restore i.pos, Except.ok []) := by
    simp [many, hr]
  refine ⟨hm, ?_⟩
  rw [hm]
  rfl

/-- Witness for C5 at a concrete input: `pFail` fails at once on `[5]`, and
`many` returns an empty list with the input at position 0. -/
theorem many_first_fail_empty_success_witness :
    many 1 pFail (InputBuf.new [5]) =
      ((InputBuf.new [5]).restore (InputBuf.new [5]).pos,
        Except.ok ([] : List Nat)) ∧
    ((many 1 pFail (InputBuf.new [5])).1).pos = (InputBuf.new [5]).pos :=
  many_first_fail_empty_success 0 pFail (InputBuf.new [5]) (InputBuf.new [5]) 7 rfl

/-- Helper for C1: whenever the `run_iter!` loop stops with an error state,
the input it was running the failing attempt on is reachable from the start by
successful parses only, the returned buffer is the remainder of that failing
attempt, and the returned mark is the offset of that input, i.e. the position
right after the last confirmed success. -/
theorem run_iter_last_mark {α T E : Type} (p : InputBuf α → ParseResult α T E) :
    ∀ (fuel : Nat) (i : InputBuf α) (m0 : Nat) (acc res : List T)
      (s : InputBuf α) (m : Nat) (e : E),
      run_iter p fuel i m0 acc = (res, s, m, some e) →
      ∃ j, Reaches p i j ∧ p j = (s, Except.error e) ∧ m = j.mark := by
  intro fuel
  induction fuel with
  | zero =>
    intro i m0 acc res s m e h
    simp [run_iter] at h
  | succ n ih =>
    intro i m0 acc res s m e h
    rcases hp : p i with ⟨b, r⟩
    rcases r with e2 | v
    · simp only [run_iter, hp, Prod.mk.injEq, Option.some.injEq] at h
      obtain ⟨-, hb, hm, he⟩ := h
      exact ⟨i, Reaches.refl i, by rw [hp, hb, he], hm.symm⟩
    · simp only [run_iter, hp] at h
      obtain ⟨j, hr, hj, hm⟩ := ih b i.mark (v :: acc) res s m e h
      exact ⟨j, Reaches.head hp hr, hj, hm⟩

/-- C1: when the iteration loop behind the repetition combinators ends because
the final attempt of the element parser failed, the remaining input handed
back (the end-state buffer restored to the end-state mark, which is what the
combinators return) sits exactly at the mark taken just before the failing
attempt — the position right after the last successful parse, reachable from
the start by successes only — and never at a position inside the failed
attempt. -/
theorem iter_fail_restores_to_last_success {α T E : Type} (fuel : Nat)
    (p : InputBuf α → ParseResult α T E) (i : InputBuf α)
    (res : List T) (s : InputBuf α) (m : Nat) (e : E)
    (h : run_iter p fuel i i.mark [] = (res, s, m, some e)) :
    ∃ j, Reaches p i j ∧ p j = (s, Except.error e) ∧ m = j.mark ∧
      many fuel p i = (s.restore j.mark, Except.ok res) := by
  obtain ⟨j, hr, hj, hm⟩ := run_iter_last_mark p fuel i i.mark [] res s m e h
  refine ⟨j, hr, hj, hm, ?_⟩
  simp only [many, h]
  rw [hm]

/-- Witness for C1 at a concrete input: on `[1, 2]` the one-token parser
succeeds twice, then fails with the incomplete flag set on its third attempt;
the loop hands back the mark 2 (right after the second success) and `many`
restores the remainder of the failed attempt to that position. -/
theorem iter_fail_restores_to_last_success_witness :
    ∃ j, Reaches pTok (InputBuf.new [1, 2]) j ∧
      pTok j = ({ buf := [1, 2], pos := 2, incomplete := true }, Except.error 9) ∧
      (2 : Nat) = j.mark ∧
      many 3 pTok (InputBuf.new [1, 2]) =
        (InputBuf.restore { buf := [1, 2], pos := 2, incomplete := true } j.mark,
          Except.ok [1, 2]) :=
  iter_fail_restores_to_last_success 3 pTok (InputBuf.new [1, 2])
    [1, 2] { buf := [1, 2], pos := 2, incomplete := true } 2 9 (by decide)

/-- C6: in the loop of `many_till`, each iteration first tries the end parser
from a mark taken at the current position; when the end parser fails, the
input is restored to that pre-end mark, the element parser is attempted from
there, and the error value of the end parser is discarded entirely — it
appears nowhere in the continuation, which is the same for every error value. -/
theorem many_till_end_fail_restores {α T U E N : Type}
    (p : InputBuf α → ParseResult α T E)
    (endp : InputBuf α → ParseResult α U N) (fuel : Nat)
    (i b : InputBuf α) (acc : List T) (n : N)
    (h : endp i = (b, Except.error n)) :
    iter_till_end_test endp i = (b.restore i.mark, false) ∧
    run_iter_till p endp (fuel + 1) i acc =
      (match p (b.restore i.mark) with
       | (b2, Except.ok v) => run_iter_till p endp fuel b2 (v :: acc)
       | (b2, Except.error e) => (acc.reverse, b2, EndStateTill.Error e)) := by
  have ht : iter_till_end_test endp i = (b.restore i.mark, false) := by
    simp [iter_till_end_test, h]
  refine ⟨ht, ?_⟩
  simp only [run_iter_till, ht]

/-- Witness for C6 at a concrete input: the end parser `pFail` fails on `[4]`
leaving the input in place, the loop restores to the pre-end mark 0 and runs
the element parser from there. -/
theorem many_till_end_fail_restores_witness :
    iter_till_end_test pFail (InputBuf.new [4]) =
      ((InputBuf.new [4]).restore (InputBuf.new [4]).mark, false) ∧
    run_iter_till pTok pFail 1 (InputBuf.new [4]) [] =
      (match pTok ((InputBuf.new [4]).restore (InputBuf.new [4]).mark) with
       | (b2, Except.ok v) => run_iter_till pTok pFail 0 b2 [v]
       | (b2, Except.error e) => ([], b2, EndStateTill.Error e)) :=
  many_till_end_fail_restores pTok pFail 0 (InputBuf.new [4]) (InputBuf.new [4])
    [] 7 rfl

/-- C7: when the `run_iter_till!` loop ends with its state still the initial
`EndStateTill::Incomplete` — neither the element parser failed nor the end
parser succeeded before the iteration stopped — `many_till` reports
Incomplete, not Success and not Error. -/
theorem many_till_initial_state_incomplete {α T U E N : Type} (fuel : Nat)
    (p : InputBuf α → ParseResult α T E)
    (endp : InputBuf α → ParseResult α U N) (i : InputBuf α)
    (res : List T) (s : InputBuf α)
    (h : run_iter_till p endp fuel i [] = (res, s, EndStateTill.Incomplete)) :
    many_till fuel p endp i = MResult.incomplete ∧
    (∀ s2 v, many_till fuel p endp i ≠ MResult.success s2 v) ∧
    (∀ s2 e, many_till fuel p endp i ≠ MResult.error s2 e) := by
  have hm : many_till fuel p endp i = MResult.incomplete := by
    simp [many_till, h]
  refine ⟨hm, fun s2 v hc => ?_, fun s2 e hc => ?_⟩
  · rw [hm] at hc
    exact MResult.noConfusion hc
  · rw [hm] at hc
    exact MResult.noConfusion hc

/-- Witness for C7 at a concrete input: on `[1, 2]` with element parser
`pTok` and end parser `pFail`, the element parser keeps succeeding and the
end parser never does, so after the two available items the loop state is
still the initial one and `many_till` reports Incomplete. -/
theorem many_till_initial_state_incomplete_witness :
    many_till 2 pTok pFail (InputBuf.new [1, 2]) = MResult.incomplete ∧
    many_till 2 pTok pFail (InputBuf.new [1, 2]) ≠
      MResult.success { buf := [1, 2], pos := 2, incomplete := false } [1, 2] ∧
    many_till 2 pTok pFail (InputBuf.new [1, 2]) ≠
      MResult.error { buf := [1, 2], pos := 2, incomplete := false } 9 := by
  have h := many_till_initial_state_incomplete 2 pTok pFail (InputBuf.new [1, 2])
    [1, 2] { buf := [1, 2], pos := 2, incomplete := false } (by decide)
  exact ⟨h.1, h.2.1 _ _, h.2.2 _ _⟩

/-- Helper for C10: started with a present buffer, the literal
`Option`-buffered `run_iter!` loop computes exactly what the pure loop
computes, wrapped in `Except.ok` — in particular it never reaches the
`expect("Iter.buf was None")` failure. -/
theorem run_iter_buf_eq {α T E : Type} (p : InputBuf α → ParseResult α T E) :
    ∀ (fuel : Nat) (i : InputBuf α) (m : Nat) (acc : List T),
      run_iter_buf p fuel { state := none, buf := some i, mark := m } acc =
        Except.ok (run_iter p fuel i m acc) := by
  intro fuel
  induction fuel with
  | zero => intro i m acc; rfl
  | succ n ih =>
    intro i m acc
    rcases hp : p i with ⟨b, r⟩
    rcases r with e | v
    · simp [run_iter_buf, run_iter, Iter.next, Iter.end_state, Except.map, hp]
    · simp [run_iter_buf, run_iter, Iter.next, hp, ih]

/-- Helper for C10: the same statement for the `run_iter_till!` loop with the
`iter_till_end_test!` hook. -/
theorem run_iter_till_buf_eq {α T U E N : Type}
    (p : InputBuf α → ParseResult α T E)
    (endp : InputBuf α → ParseResult α U N) :
    ∀ (fuel : Nat) (i : InputBuf α) (acc : List T),
      run_iter_till_buf p endp fuel
          { state := EndStateTill.Incomplete, buf := some i } acc =
        Except.ok (run_iter_till p endp fuel i acc) := by
  intro fuel
  induction fuel with
  | zero => intro i acc; rfl
  | succ n ih =>
    intro i acc
    rcases hend : endp i with ⟨b, r⟩
    rcases r with ne | u
    · rcases hp : p (b.restore i.mark) with ⟨b2, r2⟩
      rcases r2 with e2 | v2
      · simp [run_iter_till_buf, run_iter_till, IterTill.next, IterTill.end_state,
          iter_till_end_test, Except.map, hend, hp]
      · simp [run_iter_till_buf, run_iter_till, IterTill.next,
          iter_till_end_test, hend, hp, ih]
    · simp [run_iter_till_buf, run_iter_till, IterTill.next, IterTill.end_state,
        iter_till_end_test, Except.map, hend]

/-- C10: the `buf` field of the iterator states is `Some` at every point
where the loops unwrap it: starting from a present buffer, the literal
models of the `run_iter!` and `run_iter_till!` loops — including every
`self.buf.take()` in `next`, in `iter_till_end_test!` and in `end_state` —
always return a value and never the `"Iter.buf was None"` failure that models
the panic. -/
theorem iter_buf_expect_never_panics {α T E U N : Type} (fuel : Nat)
    (p q : InputBuf α → ParseResult α T E)
    (endp : InputBuf α → ParseResult α U N)
    (i : InputBuf α) (m : Nat) (acc acc2 : List T) :
    (∃ r, run_iter_buf p fuel { state := none, buf := some i, mark := m } acc =
      Except.ok r) ∧
    (∀ msg, run_iter_buf p fuel { state := none, buf := some i, mark := m } acc ≠
      Except.error msg) ∧
    (∃ r2, run_iter_till_buf q endp fuel
        { state := EndStateTill.Incomplete, buf := some i } acc2 =
      Except.ok r2) ∧
    (∀ msg, run_iter_till_buf q endp fuel
        { state := EndStateTill.Incomplete, buf := some i } acc2 ≠
      Except.error msg) := by
  refine ⟨⟨_, run_iter_buf_eq p fuel i m acc⟩, fun msg hc => ?_,
    ⟨_, run_iter_till_buf_eq q endp fuel i acc2⟩, fun msg hc => ?_⟩
  · rw [run_iter_buf_eq p fuel i m acc] at hc
    exact Except.noConfusion hc
  · rw [run_iter_till_buf_eq q endp fuel i acc2] at hc
    exact Except.noConfusion hc
